import Mathlib

/-!
Shallow embedding of the `michis_collection_cursor` crate: a `CollectionCursor`
pairing an indexable container with a position index, with checked seek
arithmetic (`src/src/lib.rs`), together with the capability-trait dictionaries
and the concrete list-backed instances
(`src/src/indexable_collection_impls.rs`, `src/src/trait_impls_by_crate/`).

Machine integers: `usize` is modelled as `Nat` together with the explicit
bound `USIZE_MAX = 2 ^ 64 - 1`, and `usize::checked_add_signed` as exact
integer addition that fails (returns `none`) outside `[0, USIZE_MAX]`.
Mutating Rust methods (`&mut self`) are modelled by explicit state passing:
they return the updated container / cursor.  All functions are total; a call
that would panic in Rust is kept out of a function's domain by a hypothesis
in the theorems concerning it.
-/

/-- Largest value of the 64-bit `usize` type. -/
def USIZE_MAX : Nat := 2 ^ 64 - 1

/-- Model of `usize::checked_add_signed`: `n + p` computed exactly over `Int`,
failing (rather than wrapping) when the result is negative (underflow) or
exceeds `USIZE_MAX` (overflow). -/
def checked_add_signed (n : Nat) (p : Int) : Option Nat :=
  if 0 ≤ (n : Int) + p ∧ ((n : Int) + p).toNat ≤ USIZE_MAX then
    some ((n : Int) + p).toNat
  else
    none

/-- The `SeekFrom` enum of `src/src/lib.rs`: `Start(usize)`, `End(isize)`,
`Current(isize)`. -/
inductive SeekFrom where
  | Start : Nat → SeekFrom
  | End : Int → SeekFrom
  | Current : Int → SeekFrom

/-- Dictionary for the `IndexableCollection` trait of `src/src/lib.rs`:
`len` and `get_item`. -/
structure IndexableCollection (C : Type) (Item : Type) where
  len : C → Nat
  get_item : C → Nat → Option Item

/-- Dictionary for the `IndexableCollectionMut` trait of `src/src/lib.rs`:
`get_item_mut`, `set_item`, `insert_item`, `remove_item`, `clear`.
`remove_item` returns the removed item (if any) and the updated container;
the other mutators return the updated container. -/
structure IndexableCollectionMut (C : Type) (Item : Type) extends
    IndexableCollection C Item where
  get_item_mut : C → Nat → Option Item
  set_item : C → Nat → Item → C
  insert_item : C → Nat → Item → C
  remove_item : C → Nat → Option Item × C
  clear : C → C

/-- The `CollectionCursor` struct of `src/src/lib.rs`: a wrapped container
and a `usize` position. -/
structure CollectionCursor (C : Type) where
  inner : C
  pos : Nat

/-- `CollectionCursor::new`: wraps the collection, position `0`. -/
def CollectionCursor.new {C : Type} (inner : C) : CollectionCursor C :=
  { inner := inner, pos := 0 }

/-- `CollectionCursor::position`. -/
def CollectionCursor.position {C : Type} (c : CollectionCursor C) : Nat :=
  c.pos

/-- The `desired_position` computation inside `CollectionCursor::seek`
(`src/src/lib.rs` lines 78-82): `Start(p)` gives `Some(p)`, `End(p)` gives
`collection_len.checked_add_signed(p)`, `Current(p)` gives
`self.pos.checked_add_signed(p)`. -/
def CollectionCursor.seekTarget {C Item : Type} (tc : IndexableCollection C Item)
    (c : CollectionCursor C) (sf : SeekFrom) : Option Nat :=
  match sf with
  | SeekFrom.Start p => some p
  | SeekFrom.End p => checked_add_signed (tc.len c.inner) p
  | SeekFrom.Current p => checked_add_signed c.pos p

/-- `CollectionCursor::seek` (`src/src/lib.rs` lines 75-87): the desired
position is filtered by `pos <= collection_len`; on success the cursor's
position is updated (`inspect`) and `Some(new_pos)` is returned, otherwise
`None` is returned and the cursor is untouched. -/
def CollectionCursor.seek {C Item : Type} (tc : IndexableCollection C Item)
    (c : CollectionCursor C) (sf : SeekFrom) : Option Nat × CollectionCursor C :=
  match (CollectionCursor.seekTarget tc c sf).filter
      (fun t => decide (t ≤ tc.len c.inner)) with
  | some new_pos => (some new_pos, { c with pos := new_pos })
  | none => (none, c)

/-- `CollectionCursor::clamp_to_last_item` (`src/src/lib.rs` lines 91-97):
`self.pos.min(self.inner.len().checked_sub(1).unwrap_or_default())`; in the
model, `Nat` subtraction is already saturating. -/
def CollectionCursor.clamp_to_last_item {C Item : Type}
    (tc : IndexableCollection C Item) (c : CollectionCursor C) : CollectionCursor C :=
  { c with pos := min c.pos (tc.len c.inner - 1) }

/-- `CollectionCursor::clamp_to_end` (`src/src/lib.rs` lines 101-105):
`self.pos = self.pos.min(self.inner.len())`. -/
def CollectionCursor.clamp_to_end {C Item : Type}
    (tc : IndexableCollection C Item) (c : CollectionCursor C) : CollectionCursor C :=
  { c with pos := min c.pos (tc.len c.inner) }

/-- `CollectionCursor::seek_to_start`: `self.pos = 0`. -/
def CollectionCursor.seek_to_start {C : Type} (c : CollectionCursor C) :
    CollectionCursor C :=
  { c with pos := 0 }

/-- `CollectionCursor::seek_relative`: `self.seek(SeekFrom::Current(offset))`. -/
def CollectionCursor.seek_relative {C Item : Type} (tc : IndexableCollection C Item)
    (c : CollectionCursor C) (offset : Int) : Option Nat × CollectionCursor C :=
  CollectionCursor.seek tc c (SeekFrom.Current offset)

/-- `CollectionCursor::seek_backward_one`: `self.seek_relative(-1).is_some()`,
paired with the updated cursor. -/
def CollectionCursor.seek_backward_one {C Item : Type}
    (tc : IndexableCollection C Item) (c : CollectionCursor C) :
    Bool × CollectionCursor C :=
  ((CollectionCursor.seek_relative tc c (-1)).1.isSome,
    (CollectionCursor.seek_relative tc c (-1)).2)

/-- `CollectionCursor::seek_forward_one`: `self.seek_relative(1).is_some()`,
paired with the updated cursor. -/
def CollectionCursor.seek_forward_one {C Item : Type}
    (tc : IndexableCollection C Item) (c : CollectionCursor C) :
    Bool × CollectionCursor C :=
  ((CollectionCursor.seek_relative tc c 1).1.isSome,
    (CollectionCursor.seek_relative tc c 1).2)

/-- `CollectionCursor::seek_to_last_item` (`src/src/lib.rs` lines 142-144):
`self.pos = self.inner.len().checked_sub(1).unwrap_or_default()`. -/
def CollectionCursor.seek_to_last_item {C Item : Type}
    (tc : IndexableCollection C Item) (c : CollectionCursor C) : CollectionCursor C :=
  { c with pos := tc.len c.inner - 1 }

/-- `CollectionCursor::seek_to_end` (`src/src/lib.rs` lines 149-151):
`self.pos = self.inner.len()`. -/
def CollectionCursor.seek_to_end {C Item : Type}
    (tc : IndexableCollection C Item) (c : CollectionCursor C) : CollectionCursor C :=
  { c with pos := tc.len c.inner }

/-- `CollectionCursor::get_item_at_cursor`: `self.inner.get_item(self.pos)`. -/
def CollectionCursor.get_item_at_cursor {C Item : Type}
    (tc : IndexableCollection C Item) (c : CollectionCursor C) : Option Item :=
  tc.get_item c.inner c.pos

/-- `CollectionCursor::clear` (`src/src/lib.rs` lines 167-170): clears the
inner collection and resets the position to `0`. -/
def CollectionCursor.clear {C Item : Type} (tc : IndexableCollectionMut C Item)
    (c : CollectionCursor C) : CollectionCursor C :=
  { inner := tc.clear c.inner, pos := 0 }

/-- `CollectionCursor::set_item_at_cursor`: `self.inner.set_item(self.pos, item)`. -/
def CollectionCursor.set_item_at_cursor {C Item : Type}
    (tc : IndexableCollectionMut C Item) (c : CollectionCursor C) (item : Item) :
    CollectionCursor C :=
  { c with inner := tc.set_item c.inner c.pos item }

/-- `CollectionCursor::insert_item_at_cursor` (`src/src/lib.rs` lines
193-195): `self.inner.insert_item(self.pos, item)`; the position is not
moved. -/
def CollectionCursor.insert_item_at_cursor {C Item : Type}
    (tc : IndexableCollectionMut C Item) (c : CollectionCursor C) (item : Item) :
    CollectionCursor C :=
  { c with inner := tc.insert_item c.inner c.pos item }

/-- `CollectionCursor::remove_item_at_cursor` (`src/src/lib.rs` lines
201-206): `self.inner.remove_item(self.pos)`; the position is not moved. -/
def CollectionCursor.remove_item_at_cursor {C Item : Type}
    (tc : IndexableCollectionMut C Item) (c : CollectionCursor C) :
    Option Item × CollectionCursor C :=
  ((tc.remove_item c.inner c.pos).1,
    { c with inner := (tc.remove_item c.inner c.pos).2 })

/-- The documented cursor invariant (`src/src/lib.rs` lines 14-17):
`0 <= pos <= self.inner.len()` (the lower bound is vacuous over `Nat`). -/
def CollectionCursor.invariant {C Item : Type} (tc : IndexableCollection C Item)
    (c : CollectionCursor C) : Prop :=
  c.pos ≤ tc.len c.inner

/-- The `Vec<T>` implementation of `IndexableCollection`
(`src/src/trait_impls_by_crate/alloc.rs` via `forward_indexable!`, and
`src/src/indexable_collection_impls.rs` lines 7-17): `len` is the list
length, `get_item` is the bounds-checked `get`. -/
def vecIndexable (α : Type) : IndexableCollection (List α) α where
  len := List.length
  get_item := fun l i => l[i]?

/-- The `Vec<T>` implementation of `IndexableCollectionMut` in the
macro-based revision (`src/src/trait_impls_by_crate/mod.rs` lines 13-23,
`forward_mutable!`: `self[index] = element`, which over a list is `List.set`;
and `forward_resizable!` with `check_len_on_remove = true`:
`(index < self.len()).then(|| self.remove(index))`).  `insert_item` is
`Vec::insert`, i.e. insertion before index `i` shifting later elements up. -/
def vecMut (α : Type) : IndexableCollectionMut (List α) α where
  toIndexableCollection := vecIndexable α
  get_item_mut := fun l i => l[i]?
  set_item := fun l i v => l.set i v
  insert_item := fun l i v => l.insertIdx i v
  remove_item := fun l i =>
    if i < l.length then (l[i]?, l.eraseIdx i) else (none, l)
  clear := fun _ => []

/-- The `set_item` of the other revision of the trait implementations
(`src/src/indexable_collection_impls.rs` lines 24-26 for `Vec`,
`src/src/trait_impls_by_crate/smallvec.rs` lines 22-24,
`arrayvec.rs` lines 22-24, `tinyvec.rs`): `self.insert(index, item)` — it
inserts instead of overwriting. -/
def setItemViaInsert {α : Type} (l : List α) (i : Nat) (v : α) : List α :=
  l.insertIdx i v

/-- Characterization of `checked_add_signed` succeeding: the result is the
exact integer sum, which is nonnegative and at most `USIZE_MAX`. -/
theorem checked_add_signed_eq_some_iff {n : Nat} {p : Int} {t : Nat} :
    checked_add_signed n p = some t ↔
      (t : Int) = (n : Int) + p ∧ (n : Int) + p ≤ (USIZE_MAX : Int) := by
  unfold checked_add_signed
  split
  case isTrue h =>
    simp only [Option.some.injEq]
    omega
  case isFalse h =>
    simp only [reduceCtorEq, false_iff]
    omega

/-- Characterization of `checked_add_signed` failing: the exact integer sum
underflows (is negative) or overflows (exceeds `USIZE_MAX`). -/
theorem checked_add_signed_eq_none_iff {n : Nat} {p : Int} :
    checked_add_signed n p = none ↔
      ((n : Int) + p < 0 ∨ (USIZE_MAX : Int) < (n : Int) + p) := by
  unfold checked_add_signed
  split
  case isTrue h =>
    simp only [reduceCtorEq, false_iff]
    omega
  case isFalse h =>
    simp only [true_iff]
    omega

/-- Closed form of `CollectionCursor.seek`: commit the candidate target to
the position exactly when it exists and is at most the collection length. -/
theorem seek_spec {C Item : Type} (tc : IndexableCollection C Item)
    (c : CollectionCursor C) (sf : SeekFrom) :
    CollectionCursor.seek tc c sf =
      match CollectionCursor.seekTarget tc c sf with
      | some t =>
          if t ≤ tc.len c.inner then (some t, { c with pos := t }) else (none, c)
      | none => (none, c) := by
  unfold CollectionCursor.seek
  cases h : CollectionCursor.seekTarget tc c sf with
  | none => rfl
  | some t =>
    by_cases ht : t ≤ tc.len c.inner
    · simp [Option.filter_some, ht]
    · simp [Option.filter_some, ht]

/-- A seek never touches the wrapped collection. -/
theorem seek_inner_unchanged {C Item : Type} (tc : IndexableCollection C Item)
    (c : CollectionCursor C) (sf : SeekFrom) :
    (CollectionCursor.seek tc c sf).2.inner = c.inner := by
  rw [seek_spec]
  cases CollectionCursor.seekTarget tc c sf with
  | none => rfl
  | some t =>
    by_cases ht : t ≤ tc.len c.inner <;> simp [ht]

/-- After a seek the position is at most the collection length, provided it
was so before (a failed seek keeps the old position). -/
theorem seek_pos_le {C Item : Type} (tc : IndexableCollection C Item)
    (c : CollectionCursor C) (sf : SeekFrom) (h : c.pos ≤ tc.len c.inner) :
    (CollectionCursor.seek tc c sf).2.pos ≤ tc.len c.inner := by
  rw [seek_spec]
  cases CollectionCursor.seekTarget tc c sf with
  | none => exact h
  | some t =>
    by_cases ht : t ≤ tc.len c.inner <;> simp [ht]
    exact h

/-- A failed seek leaves the cursor exactly as it was. -/
theorem seek_none_noop {C Item : Type} (tc : IndexableCollection C Item)
    (c : CollectionCursor C) (sf : SeekFrom)
    (h : (CollectionCursor.seek tc c sf).1 = none) :
    CollectionCursor.seek tc c sf = (none, c) := by
  rw [seek_spec] at h ⊢
  cases h2 : CollectionCursor.seekTarget tc c sf with
  | none => rfl
  | some t =>
    rw [h2] at h
    by_cases ht : t ≤ tc.len c.inner
    · simp [ht] at h
    · simp [ht]

/-- The length-related part of the §4.1 collaborator contract for
`IndexableCollectionMut`: `set` keeps the length (on an in-bounds index),
`insert` grows it by one (on an index at most the length), `remove` past the
end returns nothing and leaves the container untouched, `remove` in bounds
shrinks the length by one, and `clear` leaves length `0`. -/
structure MutContract {C Item : Type} (tc : IndexableCollectionMut C Item) : Prop where
  len_set : ∀ l i v, i < tc.len l → tc.len (tc.set_item l i v) = tc.len l
  len_insert : ∀ l i v, i ≤ tc.len l → tc.len (tc.insert_item l i v) = tc.len l + 1
  remove_oob : ∀ l i, tc.len l ≤ i → tc.remove_item l i = (none, l)
  len_remove : ∀ l i, i < tc.len l → tc.len (tc.remove_item l i).2 = tc.len l - 1
  len_clear : ∀ l, tc.len (tc.clear l) = 0

/-- The list-backed (`Vec`) dictionary meets the §4.1 contract. -/
theorem vecMutContract (α : Type) : MutContract (vecMut α) := by
  constructor
  · intro l i v _
    exact List.length_set l i v
  · intro l i v h
    exact List.length_insertIdx i l h
  · intro l i h
    have h2 : ¬ i < l.length := Nat.not_lt_of_le h
    simp [vecMut, h2]
  · intro l i h
    have h2 : i < l.length := h
    simp [vecMut, vecIndexable, h2, List.length_eraseIdx]
  · intro l
    rfl

/-- Claim C1: for every container and every current position, `seek` computes
its candidate target as `Start(p)` giving `p` directly, `End(p)` giving
`len + p` and `Current(p)` giving `pos + p`, the latter two by checked
signed-offset addition — exact integer addition that fails on underflow
(negative result) or overflow (beyond `USIZE_MAX`) rather than wrapping —
and then commits the target to the position exactly when `target ≤ len`. -/
theorem seek_candidate_target_and_commit {C Item : Type}
    (tc : IndexableCollection C Item) (c : CollectionCursor C) :
    (∀ sf, CollectionCursor.seek tc c sf =
      match CollectionCursor.seekTarget tc c sf with
      | some t =>
          if t ≤ tc.len c.inner then (some t, { c with pos := t }) else (none, c)
      | none => (none, c)) ∧
    (∀ p : Nat, CollectionCursor.seekTarget tc c (SeekFrom.Start p) = some p) ∧
    (∀ (p : Int) (t : Nat),
      CollectionCursor.seekTarget tc c (SeekFrom.End p) = some t ↔
        (t : Int) = (tc.len c.inner : Int) + p ∧
          (tc.len c.inner : Int) + p ≤ (USIZE_MAX : Int)) ∧
    (∀ p : Int,
      CollectionCursor.seekTarget tc c (SeekFrom.End p) = none ↔
        ((tc.len c.inner : Int) + p < 0 ∨
          (USIZE_MAX : Int) < (tc.len c.inner : Int) + p)) ∧
    (∀ (p : Int) (t : Nat),
      CollectionCursor.seekTarget tc c (SeekFrom.Current p) = some t ↔
        (t : Int) = (c.pos : Int) + p ∧ (c.pos : Int) + p ≤ (USIZE_MAX : Int)) ∧
    (∀ p : Int,
      CollectionCursor.seekTarget tc c (SeekFrom.Current p) = none ↔
        ((c.pos : Int) + p < 0 ∨ (USIZE_MAX : Int) < (c.pos : Int) + p)) := by
  refine ⟨seek_spec tc c, fun p => rfl, ?_, ?_, ?_, ?_⟩
  · intro p t
    exact checked_add_signed_eq_some_iff
  · intro p
    exact checked_add_signed_eq_none_iff
  · intro p t
    exact checked_add_signed_eq_some_iff
  · intro p
    exact checked_add_signed_eq_none_iff

/-- Claim C2: for every container, starting position and seek mode, if the
computed target exceeds the length, or the checked arithmetic under- or
overflows (no target exists), then `seek` returns `none` and leaves the
cursor — in particular its position — exactly as it was: no partial move.
The model is a total function, so the operation cannot panic. -/
theorem seek_failure_leaves_cursor_unchanged {C Item : Type}
    (tc : IndexableCollection C Item) (c : CollectionCursor C) (sf : SeekFrom)
    (h : (∃ t, CollectionCursor.seekTarget tc c sf = some t ∧ tc.len c.inner < t) ∨
      CollectionCursor.seekTarget tc c sf = none) :
    CollectionCursor.seek tc c sf = (none, c) := by
  rw [seek_spec]
  rcases h with ⟨t, h1, h2⟩ | h1
  · rw [h1]
    simp [Nat.not_le_of_lt h2]
  · rw [h1]

/-- Witness for claim C2: seeking to absolute position `5` in a
three-element collection fails and keeps the cursor at position `1`. -/
theorem seek_failure_leaves_cursor_unchanged_witness :
    CollectionCursor.seek (vecIndexable Nat) ⟨[0, 1, 2], 1⟩ (SeekFrom.Start 5) =
      (none, ⟨[0, 1, 2], 1⟩) :=
  seek_failure_leaves_cursor_unchanged (vecIndexable Nat) ⟨[0, 1, 2], 1⟩
    (SeekFrom.Start 5) (Or.inl ⟨5, by decide, by decide⟩)

/-- Claim C6: `clamp_to_last_item` sets the position to
`min(pos, L - 1 if L > 0 else 0)` and `clamp_to_end` sets it to
`min(pos, L)`; both leave the container unchanged, always succeed (they are
total and defined for every starting position, including one out of bounds
after an external shrink) and re-establish the position invariant. -/
theorem clamp_operations_spec {C Item : Type} (tc : IndexableCollection C Item)
    (c : CollectionCursor C) :
    (CollectionCursor.clamp_to_last_item tc c).pos =
      min c.pos (if tc.len c.inner = 0 then 0 else tc.len c.inner - 1) ∧
    (CollectionCursor.clamp_to_end tc c).pos = min c.pos (tc.len c.inner) ∧
    (CollectionCursor.clamp_to_last_item tc c).inner = c.inner ∧
    (CollectionCursor.clamp_to_end tc c).inner = c.inner ∧
    CollectionCursor.invariant tc (CollectionCursor.clamp_to_last_item tc c) ∧
    CollectionCursor.invariant tc (CollectionCursor.clamp_to_end tc c) := by
  refine ⟨?_, rfl, rfl, rfl, ?_, ?_⟩
  · show min c.pos (tc.len c.inner - 1) = _
    rcases Nat.eq_zero_or_pos (tc.len c.inner) with h | h
    · simp [h]
    · simp [h.ne']
  · exact Nat.le_trans (Nat.min_le_right _ _) (Nat.sub_le _ _)
  · exact Nat.min_le_right _ _

/-- Claim C7: `seek_to_end` always succeeds and establishes
`position = length`, and `seek_to_last_item` always succeeds and establishes
`position = length - 1` on a non-empty container and `position = 0` on an
empty one, regardless of the starting position; neither touches the
container. -/
theorem seek_to_end_and_last_item_spec {C Item : Type}
    (tc : IndexableCollection C Item) (c : CollectionCursor C) :
    (CollectionCursor.seek_to_end tc c).pos = tc.len c.inner ∧
    (CollectionCursor.seek_to_end tc c).inner = c.inner ∧
    (CollectionCursor.seek_to_last_item tc c).pos =
      (if tc.len c.inner = 0 then 0 else tc.len c.inner - 1) ∧
    (CollectionCursor.seek_to_last_item tc c).inner = c.inner := by
  refine ⟨rfl, rfl, ?_, rfl⟩
  show tc.len c.inner - 1 = _
  rcases Nat.eq_zero_or_pos (tc.len c.inner) with h | h
  · simp [h]
  · simp [h.ne']

/-- Claim C10: every seek and clamp operation — `seek` in all three modes,
`seek_relative`, `seek_forward_one`, `seek_backward_one`, `seek_to_start`,
`seek_to_end`, `seek_to_last_item`, `clamp_to_last_item`, `clamp_to_end` —
leaves the wrapped container itself completely unchanged (hence its length
and every element); only the stored position may change. -/
theorem seek_and_clamp_leave_container_unchanged {C Item : Type}
    (tc : IndexableCollection C Item) (c : CollectionCursor C) :
    (∀ sf, (CollectionCursor.seek tc c sf).2.inner = c.inner) ∧
    (∀ offset, (CollectionCursor.seek_relative tc c offset).2.inner = c.inner) ∧
    (CollectionCursor.seek_forward_one tc c).2.inner = c.inner ∧
    (CollectionCursor.seek_backward_one tc c).2.inner = c.inner ∧
    (CollectionCursor.seek_to_start c).inner = c.inner ∧
    (CollectionCursor.seek_to_end tc c).inner = c.inner ∧
    (CollectionCursor.seek_to_last_item tc c).inner = c.inner ∧
    (CollectionCursor.clamp_to_last_item tc c).inner = c.inner ∧
    (CollectionCursor.clamp_to_end tc c).inner = c.inner := by
  refine ⟨seek_inner_unchanged tc c, ?_, ?_, ?_, rfl, rfl, rfl, rfl, rfl⟩
  · intro offset
    exact seek_inner_unchanged tc c (SeekFrom.Current offset)
  · exact seek_inner_unchanged tc c (SeekFrom.Current 1)
  · exact seek_inner_unchanged tc c (SeekFrom.Current (-1))

/-- Claim C3: the documented invariant `0 ≤ position ≤ length` is preserved
by every cursor-driven operation — `seek` in any mode, the convenience
seeks, both clamps, `clear`, and the set/insert/remove at-cursor mutators —
whenever the collaborator meets the §4.1 contract (`MutContract`); the set
and insert conjuncts carry their documented non-panicking preconditions
(`pos < len`, resp. `pos ≤ len`).  `get_item_at_cursor` reads only, so it
cannot disturb the state. -/
theorem cursor_operations_preserve_invariant {C Item : Type}
    (tc : IndexableCollectionMut C Item) (mc : MutContract tc)
    (c : CollectionCursor C) (v : Item)
    (h : CollectionCursor.invariant tc.toIndexableCollection c) :
    (∀ sf, CollectionCursor.invariant tc.toIndexableCollection
      (CollectionCursor.seek tc.toIndexableCollection c sf).2) ∧
    CollectionCursor.invariant tc.toIndexableCollection
      (CollectionCursor.seek_to_start c) ∧
    CollectionCursor.invariant tc.toIndexableCollection
      (CollectionCursor.seek_to_end tc.toIndexableCollection c) ∧
    CollectionCursor.invariant tc.toIndexableCollection
      (CollectionCursor.seek_to_last_item tc.toIndexableCollection c) ∧
    CollectionCursor.invariant tc.toIndexableCollection
      (CollectionCursor.seek_forward_one tc.toIndexableCollection c).2 ∧
    CollectionCursor.invariant tc.toIndexableCollection
      (CollectionCursor.seek_backward_one tc.toIndexableCollection c).2 ∧
    CollectionCursor.invariant tc.toIndexableCollection
      (CollectionCursor.clamp_to_last_item tc.toIndexableCollection c) ∧
    CollectionCursor.invariant tc.toIndexableCollection
      (CollectionCursor.clamp_to_end tc.toIndexableCollection c) ∧
    CollectionCursor.invariant tc.toIndexableCollection
      (CollectionCursor.clear tc c) ∧
    (c.pos < tc.len c.inner →
      CollectionCursor.invariant tc.toIndexableCollection
        (CollectionCursor.set_item_at_cursor tc c v)) ∧
    (c.pos ≤ tc.len c.inner →
      CollectionCursor.invariant tc.toIndexableCollection
        (CollectionCursor.insert_item_at_cursor tc c v)) ∧
    CollectionCursor.invariant tc.toIndexableCollection
      (CollectionCursor.remove_item_at_cursor tc c).2 := by
  have hseek : ∀ sf, CollectionCursor.invariant tc.toIndexableCollection
      (CollectionCursor.seek tc.toIndexableCollection c sf).2 := by
    intro sf
    show (CollectionCursor.seek tc.toIndexableCollection c sf).2.pos ≤
      tc.len (CollectionCursor.seek tc.toIndexableCollection c sf).2.inner
    rw [seek_inner_unchanged]
    exact seek_pos_le tc.toIndexableCollection c sf h
  refine ⟨hseek, Nat.zero_le _, Nat.le_refl _, Nat.sub_le _ _,
    hseek (SeekFrom.Current 1), hseek (SeekFrom.Current (-1)),
    Nat.le_trans (Nat.min_le_right _ _) (Nat.sub_le _ _), Nat.min_le_right _ _,
    ?_, ?_, ?_, ?_⟩
  · show (0 : Nat) ≤ tc.len (tc.clear c.inner)
    rw [mc.len_clear]
  · intro hlt
    show c.pos ≤ tc.len (tc.set_item c.inner c.pos v)
    rw [mc.len_set c.inner c.pos v hlt]
    exact h
  · intro hle
    show c.pos ≤ tc.len (tc.insert_item c.inner c.pos v)
    rw [mc.len_insert c.inner c.pos v hle]
    exact Nat.le_succ_of_le h
  · show c.pos ≤ tc.len (tc.remove_item c.inner c.pos).2
    by_cases hlt : c.pos < tc.len c.inner
    · rw [mc.len_remove c.inner c.pos hlt]
      omega
    · rw [mc.remove_oob c.inner c.pos (Nat.le_of_not_lt hlt)]
      exact h

/-- Witness for claim C3: on the two-element list-backed container (which
meets the contract) with the cursor at position `1`, the invariant holds
after `clear` and after `remove_item_at_cursor`. -/
theorem cursor_operations_preserve_invariant_witness :
    CollectionCursor.invariant (vecMut Nat).toIndexableCollection
      (CollectionCursor.clear (vecMut Nat) ⟨[3, 4], 1⟩) ∧
    CollectionCursor.invariant (vecMut Nat).toIndexableCollection
      (CollectionCursor.remove_item_at_cursor (vecMut Nat) ⟨[3, 4], 1⟩).2 :=
  ⟨(cursor_operations_preserve_invariant (vecMut Nat) (vecMutContract Nat)
      ⟨[3, 4], 1⟩ 7 (by show (1 : Nat) ≤ 2; decide)).2.2.2.2.2.2.2.2.1,
    (cursor_operations_preserve_invariant (vecMut Nat) (vecMutContract Nat)
      ⟨[3, 4], 1⟩ 7 (by show (1 : Nat) ≤ 2; decide)).2.2.2.2.2.2.2.2.2.2.2⟩

/-- Claim C5: `remove_item_at_cursor` over the list-backed containers (whose
`remove_item` is the bounds-guarded `(index < len).then(remove)`): at
`position ≥ length` it returns `none`, alters neither the container nor the
position, and — being total — cannot panic; at `position < length` it
returns exactly the element at the position, keeps every earlier element,
shifts every later element down by one index, shrinks the length by one,
and leaves the position unchanged. -/
theorem remove_item_at_cursor_spec {α : Type} (c : CollectionCursor (List α)) :
    (c.inner.length ≤ c.pos →
      CollectionCursor.remove_item_at_cursor (vecMut α) c = (none, c)) ∧
    (c.pos < c.inner.length →
      (CollectionCursor.remove_item_at_cursor (vecMut α) c).1 = c.inner[c.pos]? ∧
      (CollectionCursor.remove_item_at_cursor (vecMut α) c).2.pos = c.pos ∧
      (CollectionCursor.remove_item_at_cursor (vecMut α) c).2.inner.length =
        c.inner.length - 1 ∧
      (∀ j, j < c.pos →
        (CollectionCursor.remove_item_at_cursor (vecMut α) c).2.inner[j]? =
          c.inner[j]?) ∧
      (∀ j, c.pos ≤ j →
        (CollectionCursor.remove_item_at_cursor (vecMut α) c).2.inner[j]? =
          c.inner[j + 1]?)) := by
  constructor
  · intro hge
    have h2 : ¬ c.pos < c.inner.length := Nat.not_lt_of_le hge
    simp [CollectionCursor.remove_item_at_cursor, vecMut, h2]
  · intro hlt
    have he : CollectionCursor.remove_item_at_cursor (vecMut α) c =
        (c.inner[c.pos]?, { c with inner := c.inner.eraseIdx c.pos }) := by
      simp [CollectionCursor.remove_item_at_cursor, vecMut, hlt]
    rw [he]
    refine ⟨rfl, rfl, ?_, ?_, ?_⟩
    · simp [List.length_eraseIdx, hlt]
    · intro j hj
      simp [List.getElem?_eraseIdx, hj]
    · intro j hj
      simp [List.getElem?_eraseIdx, Nat.not_lt_of_le hj]

/-- Witness for claim C5: removing at in-bounds position `1` of `[5, 6, 7]`
returns the element `6`; removing at out-of-bounds position `3` returns
`none` and leaves the cursor untouched. -/
theorem remove_item_at_cursor_spec_witness :
    (CollectionCursor.remove_item_at_cursor (vecMut Nat) ⟨[5, 6, 7], 1⟩).1 =
      ([5, 6, 7] : List Nat)[1]? ∧
    CollectionCursor.remove_item_at_cursor (vecMut Nat) ⟨[5, 6, 7], 3⟩ =
      (none, ⟨[5, 6, 7], 3⟩) :=
  ⟨((remove_item_at_cursor_spec ⟨[5, 6, 7], 1⟩).2 (by decide)).1,
    (remove_item_at_cursor_spec ⟨[5, 6, 7], 3⟩).1 (by decide)⟩

/-- Claim C8: on the list-backed container, `insert_item_at_cursor v` at a
position `p ≤ length` followed immediately by `get_item_at_cursor` returns
`v`; the insert does not move the position. -/
theorem insert_then_get_at_cursor {α : Type} (c : CollectionCursor (List α))
    (v : α) (h : c.pos ≤ c.inner.length) :
    CollectionCursor.get_item_at_cursor (vecIndexable α)
        (CollectionCursor.insert_item_at_cursor (vecMut α) c v) = some v ∧
    (CollectionCursor.insert_item_at_cursor (vecMut α) c v).pos = c.pos := by
  refine ⟨?_, rfl⟩
  show (c.inner.insertIdx c.pos v)[c.pos]? = some v
  have hlen : c.pos < (c.inner.insertIdx c.pos v).length := by
    rw [List.length_insertIdx c.pos c.inner h]
    omega
  rw [List.getElem?_eq_getElem hlen,
    List.getElem_insertIdx_self c.inner v c.pos h]

/-- Witness for claim C8: inserting `9` at position `1` of `[1, 2]` and
reading at the cursor yields `9`. -/
theorem insert_then_get_at_cursor_witness :
    CollectionCursor.get_item_at_cursor (vecIndexable Nat)
      (CollectionCursor.insert_item_at_cursor (vecMut Nat) ⟨[1, 2], 1⟩ 9) =
        some 9 :=
  (insert_then_get_at_cursor ⟨[1, 2], 1⟩ 9 (by decide)).1

/-- Claim C4 (code bug): the `set_item` of the
`indexable_collection_impls.rs` / smallvec / arrayvec / tinyvec revision
calls `insert` instead of overwriting: at index `0` of `[0, 5]` with value
`99` it produces `[99, 0, 5]` of length `3` — the claim (and the trait's own
documentation, and the `forward_mutable!` macro revision, which yields
`[99, 5]` of unchanged length `2`) requires an overwrite. -/
theorem set_item_via_insert_inserts_instead_of_overwriting :
    setItemViaInsert [0, 5] 0 99 = [99, 0, 5] ∧
    (setItemViaInsert [0, 5] 0 99).length = 3 ∧
    (vecMut Nat).set_item [0, 5] 0 99 = [99, 5] ∧
    ((vecMut Nat).set_item [0, 5] 0 99).length = 2 := by
  decide

/-- Claim C9: `seek` has no precondition that the current position be within
bounds.  For every position (also one greater than the length, with the
`usize` bound `len ≤ USIZE_MAX`, which holds for any real container),
`Current(p)` commits and returns the new position exactly when
the exact sum `pos + p` is a natural number at most the length — so a
backward relative seek from an out-of-bounds position whose target lands in
`[0, len]` succeeds and restores the invariant — it is a no-op when the sum
is negative or exceeds the length, and `Start(q)` with `q ≤ len` always
succeeds, whatever the current position. -/
theorem seek_without_position_precondition {C Item : Type}
    (tc : IndexableCollection C Item) (c : CollectionCursor C)
    (hL : tc.len c.inner ≤ USIZE_MAX) :
    (∀ (p : Int) (t : Nat),
      CollectionCursor.seek tc c (SeekFrom.Current p) =
          (some t, { c with pos := t }) ↔
        ((t : Int) = (c.pos : Int) + p ∧ t ≤ tc.len c.inner)) ∧
    (∀ p : Int,
      ((c.pos : Int) + p < 0 ∨ (tc.len c.inner : Int) < (c.pos : Int) + p) →
        CollectionCursor.seek tc c (SeekFrom.Current p) = (none, c)) ∧
    (∀ q : Nat, q ≤ tc.len c.inner →
      CollectionCursor.seek tc c (SeekFrom.Start q) =
        (some q, { c with pos := q })) := by
  have hst : ∀ p : Int, CollectionCursor.seekTarget tc c (SeekFrom.Current p) =
      checked_add_signed c.pos p := fun p => rfl
  refine ⟨?_, ?_, ?_⟩
  · intro p t
    rw [seek_spec, hst]
    cases hadd : checked_add_signed c.pos p with
    | none =>
      rw [checked_add_signed_eq_none_iff] at hadd
      simp only [Prod.mk.injEq, reduceCtorEq, false_and, false_iff]
      intro hcontra
      omega
    | some u =>
      rw [checked_add_signed_eq_some_iff] at hadd
      by_cases hu : u ≤ tc.len c.inner
      · simp only [hu, if_true, Prod.mk.injEq, Option.some.injEq,
          CollectionCursor.mk.injEq, and_true, true_and]
        omega
      · simp only [hu, if_false, Prod.mk.injEq, reduceCtorEq, false_and,
          false_iff]
        intro hcontra
        omega
  · intro p hp
    rw [seek_spec, hst]
    cases hadd : checked_add_signed c.pos p with
    | none => rfl
    | some u =>
      rw [checked_add_signed_eq_some_iff] at hadd
      have hu : ¬ u ≤ tc.len c.inner := by omega
      simp only [hu, if_false]
  · intro q hq
    rw [seek_spec]
    have hq2 : CollectionCursor.seekTarget tc c (SeekFrom.Start q) = some q := rfl
    rw [hq2]
    simp only [hq, if_true]

/-- Witness for claim C9: from the out-of-bounds position `10` over the
three-element list, the backward relative seek by `-8` succeeds and lands at
position `2`. -/
theorem seek_without_position_precondition_witness :
    CollectionCursor.seek (vecIndexable Nat) ⟨[1, 2, 3], 10⟩
        (SeekFrom.Current (-8)) =
      (some 2, { inner := [1, 2, 3], pos := 2 }) :=
  ((seek_without_position_precondition (vecIndexable Nat) ⟨[1, 2, 3], 10⟩
      (by decide)).1 (-8) 2).mpr (by decide)
